import Mathlib

/-!
Shallow embedding of the pharmacy-management API routes
(`src/app/api/drugs/route.ts`, `src/app/api/pharmacist/dashboard/route.ts`,
`src/app/api/pharmacist/prescriptions/[prescriptionId]/dispense/route.ts`,
and the stock-levels route), with proofs of the behavioural claims about
the dispensing transaction, inventory adjustment, stock classification,
and the pending-prescription queue.

Conventions: database ids are `Nat`; integer columns are `Int` (JS numbers
used integrally); monetary amounts are `ℚ`; timestamps are epoch
milliseconds as `Nat`; nullable columns are `Option`; statuses kept as the
string literals the code compares against.  Prisma tables are Lean lists;
a failed transaction leaves the caller's state untouched (rollback).
Descriptive columns that never enter a decision (dosage, manufacturer,
storage conditions, …) are omitted.
-/

namespace Pharmacy

/-! ### Inventory store (`Product` rows) -/

/-- One row of the `product` table, restricted to the columns the modelled
routes read or write. -/
structure Product where
  id : Nat
  name : String
  quantity : Int
  reorderLevel : Option Int
  isDeleted : Bool
  deriving DecidableEq, Repr

/-- JS `product.reorderLevel || 10` from the stock-levels route: the fallback
of 10 is taken when `reorderLevel` is `null` *or* `0` (both falsy). -/
def reorderThreshold (r : Option Int) : Int :=
  match r with
  | none => 10
  | some v => if v = 0 then 10 else v

/-- Stock classification labels produced by the stock-levels `GET`. -/
inductive StockStatus where
  | out_of_stock
  | low_stock
  | healthy
  deriving DecidableEq, Repr

/-- Classification from the stock-levels route:
`quantity === 0 → out_of_stock`, else `quantity <= reorderThreshold →
low_stock`, else `healthy`. -/
def stockStatus (q : Int) (r : Option Int) : StockStatus :=
  if q = 0 then .out_of_stock
  else if q ≤ reorderThreshold r then .low_stock
  else .healthy

/-- `Math.min((quantity / reorderThreshold) * 100, 100)` from the
stock-levels route, in exact rational arithmetic. -/
def stockPercentage (q : Int) (r : Option Int) : ℚ :=
  min (((q : ℚ) / (reorderThreshold r : ℚ)) * 100) 100

/-- Classification as worded by the specification sentence under check:
`out_of_stock` when quantity is zero, `low_stock` when
`0 < quantity ≤ reorderLevel` with the threshold defaulting to 10 *only
when `reorderLevel` is absent*, otherwise `healthy`.  Kept separate from
`stockStatus` so the two readings can be compared. -/
def claimStockStatus (q : Int) (r : Option Int) : StockStatus :=
  let threshold := r.getD 10
  if q = 0 then .out_of_stock
  else if 0 < q ∧ q ≤ threshold then .low_stock
  else .healthy

/-- JS ternary `p.reorderLevel ? p.quantity <= p.reorderLevel :
p.quantity <= 10` from the low-stock count in the stock-levels route. -/
def lowStockTest (q : Int) (r : Option Int) : Bool :=
  match r with
  | none => q ≤ 10
  | some v => if v = 0 then q ≤ 10 else q ≤ v

/-- Non-deleted products (`where: { isDeleted: false }`). -/
def liveProducts (ps : List Product) : List Product :=
  ps.filter (fun p => !p.isDeleted)

/-- `summary.totalDrugs`: count of non-deleted products. -/
def totalDrugs (ps : List Product) : Int :=
  (liveProducts ps).length

/-- `summary.outOfStock`: non-deleted products with `quantity: 0`. -/
def outOfStockCount (ps : List Product) : Int :=
  ((liveProducts ps).filter (fun p => p.quantity = 0)).length

/-- `summary.inStock` is computed as `totalDrugs - outOfStock`. -/
def inStockCount (ps : List Product) : Int :=
  totalDrugs ps - outOfStockCount ps

/-- `summary.lowStock`: the route first queries non-deleted products with
`quantity > 0`, then filters with `lowStockTest` in the application layer. -/
def lowStockCount (ps : List Product) : Int :=
  (((liveProducts ps).filter (fun p => 0 < p.quantity)).filter
    (fun p => lowStockTest p.quantity p.reorderLevel)).length

/-! ### Drugs endpoint (`src/app/api/drugs/route.ts`) -/

/-- One row of the `drug` table (columns the route's logic touches). -/
structure Drug where
  id : Nat
  code : String
  name : String
  quantity : Int
  reorderLevel : Int
  unit : String
  prescriptionRequired : Bool
  isDeleted : Bool
  createdAt : Nat
  deriving DecidableEq, Repr

/-- Drug table plus the id the ORM will assign to the next created row. -/
structure DrugStore where
  drugs : List Drug
  nextId : Nat
  deriving DecidableEq, Repr

/-- Request body of `POST /drugs` (after the route's numeric coercion;
`unit` and `prescriptionRequired` may be absent). -/
structure DrugInput where
  code : String
  name : String
  quantity : Int
  reorderLevel : Int
  unit : Option String
  prescriptionRequired : Option Bool
  deriving DecidableEq, Repr

/-- Error outcomes of the drugs route. -/
inductive DrugError where
  | conflict
  | notFound
  deriving DecidableEq, Repr

/-- `findFirst({ where: { code, isDeleted: false } })`. -/
def findLiveByCode (s : DrugStore) (code : String) : Option Drug :=
  s.drugs.find? (fun d => d.code == code && !d.isDeleted)

/-- `POST /drugs`: 409 when the code exists among non-deleted drugs, else
create the row (defaults: `unit || 'Pieces'`, `prescriptionRequired || false`,
both JS-falsy defaults). -/
def createDrug (s : DrugStore) (now : Nat) (inp : DrugInput) :
    Except DrugError (DrugStore × Drug) :=
  match findLiveByCode s inp.code with
  | some _ => .error .conflict
  | none =>
    let d : Drug :=
      { id := s.nextId
        code := inp.code
        name := inp.name
        quantity := inp.quantity
        reorderLevel := inp.reorderLevel
        unit := match inp.unit with
          | none => "Pieces"
          | some u => if u = "" then "Pieces" else u
        prescriptionRequired := (inp.prescriptionRequired).getD false
        isDeleted := false
        createdAt := now }
    .ok ({ drugs := s.drugs ++ [d], nextId := s.nextId + 1 }, d)

/-- Ordering used by `GET /drugs` (`createdAt: 'desc'`). -/
def createdDescLE (a b : Drug) : Prop := b.createdAt ≤ a.createdAt

instance : DecidableRel createdDescLE := fun a b =>
  inferInstanceAs (Decidable (b.createdAt ≤ a.createdAt))

/-- `GET /drugs`: non-deleted drugs, newest first. -/
def drugsList (s : DrugStore) : List Drug :=
  (s.drugs.filter (fun d => !d.isDeleted)).insertionSort createdDescLE

/-- `DELETE /drugs`: `findUnique({ where: { id } })` (no `isDeleted` filter),
404 when missing, else soft-delete by setting `isDeleted: true`. -/
def deleteDrug (s : DrugStore) (drugId : Nat) : Except DrugError DrugStore :=
  match s.drugs.find? (fun d => d.id == drugId) with
  | none => .error .notFound
  | some _ =>
    .ok { s with
          drugs := s.drugs.map (fun d =>
            if d.id == drugId then { d with isDeleted := true } else d) }

/-! ### Prescriptions, dispensing, and the pending queue -/

/-- Queue priorities.

Modelled from the spec: the Prisma schema declaring the `priority` column
is not under `src/`; the spec fixes `priority ∈ {emergency, urgent, normal}`
with total ordering `emergency < urgent < normal` for queue presentation,
which is the order `orderBy: { priority: 'asc' }` sorts by. -/
inductive Priority where
  | emergency
  | urgent
  | normal
  deriving DecidableEq, Repr

/-- Rank realising the queue ordering `emergency < urgent < normal`. -/
def priorityRank : Priority → Nat
  | .emergency => 0
  | .urgent => 1
  | .normal => 2

/-- String value of the `priority` column as it appears in query params. -/
def priorityName : Priority → String
  | .emergency => "emergency"
  | .urgent => "urgent"
  | .normal => "normal"

/-- One row of the `student` (patient) table. -/
structure Student where
  id : Nat
  firstName : String
  lastName : String
  matricNumber : String
  deriving DecidableEq, Repr

/-- One row of the `prescription` table. -/
structure Prescription where
  id : Nat
  prescriptionNo : String
  studentId : Nat
  status : String
  priority : Priority
  isDispensed : Bool
  dispensedAt : Option Nat
  dispensedBy : Option String
  amountPaid : ℚ
  totalCost : ℚ
  createdAt : Nat
  isDeleted : Bool
  deriving DecidableEq, Repr

/-- One row of the `prescriptionItem` table. -/
structure PrescriptionItem where
  id : Nat
  prescriptionId : Nat
  productId : Nat
  quantityPrescribed : Int
  quantityDispensed : Int
  isDispensed : Bool
  dispensedAt : Option Nat
  dispensedBy : Option String
  unitPrice : ℚ
  totalPrice : ℚ
  deriving DecidableEq, Repr

/-- One entry of the request body's `dispensedItems` array. -/
structure ReqItem where
  itemId : Nat
  quantityDispensed : Int
  productId : Nat
  deriving DecidableEq, Repr

/-- Request body of `POST .../dispense`. -/
structure DispenseRequest where
  dispensedItems : List ReqItem
  totalAmount : ℚ
  amountPaid : ℚ
  paymentMethod : String
  notes : String
  dispensedBy : String
  deriving DecidableEq, Repr

/-- One row of the `drugDispensal` table; the `dispensedItems` column stores
the JSON serialisation of the request's array, kept here in decoded form. -/
structure DrugDispensal where
  dispensalNo : String
  prescriptionId : Nat
  prescriptionNo : String
  studentId : Nat
  dispensedBy : String
  dispensedItems : List ReqItem
  totalAmount : ℚ
  notes : String
  createdAt : Nat
  isDeleted : Bool
  deriving DecidableEq, Repr

/-- One row of the `balanceTransaction` table (`txType` embeds the column
named `type`). -/
structure BalanceTransaction where
  studentId : Nat
  amount : ℚ
  txType : String
  description : String
  paymentMethod : String
  prescriptionId : Nat
  balanceAfter : ℚ
  deriving DecidableEq, Repr

/-- The offline database state the pharmacist routes operate on. -/
structure DB where
  products : List Product
  students : List Student
  prescriptions : List Prescription
  items : List PrescriptionItem
  dispensals : List DrugDispensal
  balanceTxns : List BalanceTransaction
  deriving DecidableEq, Repr

/-- `findUnique({ where: { id } })` on the product table. -/
def findProduct (ps : List Product) (pid : Nat) : Option Product :=
  ps.find? (fun p => p.id == pid)

/-- `findUnique({ where: { id } })` on the student table. -/
def findStudent (db : DB) (sid : Nat) : Option Student :=
  db.students.find? (fun s => s.id == sid)

/-- `findUnique({ where: { id: prescriptionId, isDeleted: false } })`. -/
def findPrescription (db : DB) (pid : Nat) : Option Prescription :=
  db.prescriptions.find? (fun pr => pr.id == pid && !pr.isDeleted)

/-- The `prescriptionItems` relation of a prescription. -/
def prescriptionItemsOf (db : DB) (pid : Nat) : List PrescriptionItem :=
  db.items.filter (fun it => it.prescriptionId == pid)

/-- Wall clock passed to the handler: calendar year and epoch millis. -/
structure Clock where
  year : Nat
  millis : Nat
  deriving DecidableEq, Repr

/-- `DISP-{year}-{epoch millis .slice(-6)}`. -/
def generateDispensalNo (c : Clock) : String :=
  let ms := toString c.millis
  "DISP-" ++ toString c.year ++ "-" ++ ms.drop (ms.length - 6)

/-- The distinct `throw` sites of the dispensing transaction.
`nullProduct` stands for the crash when the `product` include of a
prescription item is `null`; `itemRowMissing`/`productRowMissing` stand for
Prisma's record-not-found rejection of an `update` whose `where` clause
matches no row. -/
inductive DispenseError where
  | notFound
  | notPending
  | itemNotFound (itemId : Nat)
  | nullProduct (productId : Nat)
  | insufficientStock (name : String) (available required : Int)
  | itemRowMissing (itemId : Nat)
  | productRowMissing (productId : Nat)
  deriving DecidableEq, Repr

/-- Step 2 of the transaction: for each requested entry, locate the
prescription item by `itemId` inside the prescription's own item set and
compare the item's product stock with the requested quantity. -/
def checkStock (db : DB) (pItems : List PrescriptionItem) :
    List ReqItem → Option DispenseError
  | [] => none
  | d :: rest =>
    match pItems.find? (fun it => it.id == d.itemId) with
    | none => some (.itemNotFound d.itemId)
    | some it =>
      match findProduct db.products it.productId with
      | none => some (.nullProduct it.productId)
      | some p =>
        if p.quantity < d.quantityDispensed then
          some (.insufficientStock p.name p.quantity d.quantityDispensed)
        else checkStock db pItems rest

/-- Steps 4–5 applied to one prescription-item row: set
`quantityDispensed`, `isDispensed`, `dispensedAt`, `dispensedBy`. -/
def markItemDispensed (now : Nat) (oper : String) (d : ReqItem)
    (it : PrescriptionItem) : PrescriptionItem :=
  if it.id == d.itemId then
    { it with
      quantityDispensed := d.quantityDispensed
      isDispensed := true
      dispensedAt := some now
      dispensedBy := some oper }
  else it

/-- Steps 4–5 of the transaction, per requested entry in request order:
update the prescription-item row (`where: { id: itemId }`), then decrement
the quantity of the product row the *request* names
(`where: { id: productId }`).  Either update aborts the transaction when no
row matches its `where` clause. -/
def applyItemUpdates (now : Nat) (oper : String) :
    DB → List ReqItem → Except DispenseError DB
  | db, [] => .ok db
  | db, d :: rest =>
    if db.items.any (fun it => it.id == d.itemId) then
      if db.products.any (fun p => p.id == d.productId) then
        applyItemUpdates now oper
          { db with
            items := db.items.map (markItemDispensed now oper d)
            products := db.products.map (fun p =>
              if p.id == d.productId then
                { p with quantity := p.quantity - d.quantityDispensed }
              else p) }
          rest
      else .error (.productRowMissing d.productId)
    else .error (.itemRowMissing d.itemId)

/-- What the `$transaction` callback returns: the created dispensal and the
fetched prescription with its status overridden, plus the eagerly included
student used afterwards to build the HTTP response. -/
structure DispenseResult where
  dispensal : DrugDispensal
  prescription : Prescription
  student : Option Student
  deriving DecidableEq, Repr

/-- Step 3: the `drugDispensal.create` payload. -/
def mkDispensal (c : Clock) (presc : Prescription) (req : DispenseRequest) :
    DrugDispensal :=
  { dispensalNo := generateDispensalNo c
    prescriptionId := presc.id
    prescriptionNo := presc.prescriptionNo
    studentId := presc.studentId
    dispensedBy := req.dispensedBy
    dispensedItems := req.dispensedItems
    totalAmount := req.totalAmount
    notes := req.notes
    createdAt := c.millis
    isDeleted := false }

/-- Step 6 applied to one prescription row: set the recomputed status,
set `dispensedAt`/`dispensedBy` only when every item was dispensed
(`undefined` leaves the column unchanged), and record `amountPaid`. -/
def updatePrescriptionRow (pid : Nat) (allFlag : Bool) (now : Nat)
    (oper : String) (paid : ℚ) (pr : Prescription) : Prescription :=
  if pr.id == pid then
    { pr with
      status := if allFlag then "dispensed" else "partially_dispensed"
      isDispensed := allFlag
      dispensedAt := if allFlag then some now else pr.dispensedAt
      dispensedBy := if allFlag then some oper else pr.dispensedBy
      amountPaid := paid }
  else pr

/-- Step 7: the `balanceTransaction.create` payload. -/
def mkBalanceTxn (presc : Prescription) (req : DispenseRequest) :
    BalanceTransaction :=
  { studentId := presc.studentId
    amount := req.amountPaid
    txType := "DEBIT"
    description := "Payment for prescription " ++ presc.prescriptionNo
    paymentMethod := req.paymentMethod
    prescriptionId := presc.id
    balanceAfter := 0 }

/-- The dispensing transaction of
`src/app/api/pharmacist/prescriptions/[prescriptionId]/dispense/route.ts`,
in the code's order: verify prescription and status, verify stock for every
requested entry, create the `DrugDispensal`, update item and product rows,
recompute the prescription status from the *count* of requested entries,
and append a `BalanceTransaction` when `amountPaid > 0`.  An error
rolls the whole unit of work back (the caller keeps its state). -/
def dispense (db : DB) (c : Clock) (pid : Nat) (req : DispenseRequest) :
    Except DispenseError (DB × DispenseResult) :=
  match findPrescription db pid with
  | none => .error .notFound
  | some presc =>
    if presc.status ≠ "pending" then .error .notPending
    else
      let pItems := prescriptionItemsOf db presc.id
      match checkStock db pItems req.dispensedItems with
      | some e => .error e
      | none =>
        let dispRec := mkDispensal c presc req
        let db1 := { db with dispensals := db.dispensals ++ [dispRec] }
        match applyItemUpdates c.millis req.dispensedBy db1 req.dispensedItems with
        | .error e => .error e
        | .ok db2 =>
          let allItemsDispensed := req.dispensedItems.length == pItems.length
          let newStatus : String :=
            if allItemsDispensed then "dispensed" else "partially_dispensed"
          let db3 := { db2 with
                       prescriptions := db2.prescriptions.map
                         (updatePrescriptionRow presc.id allItemsDispensed
                           c.millis req.dispensedBy req.amountPaid) }
          let db4 :=
            if req.amountPaid > 0 then
              { db3 with balanceTxns := db3.balanceTxns ++ [mkBalanceTxn presc req] }
            else db3
          .ok (db4,
               { dispensal := dispRec
                 prescription := { presc with status := newStatus }
                 student := findStudent db presc.studentId })

instance {ε α : Type} [DecidableEq ε] [DecidableEq α] : DecidableEq (Except ε α)
  | .error a, .error b =>
    if h : a = b then .isTrue (by rw [h])
    else .isFalse (by intro hc; injection hc; exact h ‹_›)
  | .error _, .ok _ => .isFalse (by intro hc; exact Except.noConfusion hc)
  | .ok _, .error _ => .isFalse (by intro hc; exact Except.noConfusion hc)
  | .ok a, .ok b =>
    if h : a = b then .isTrue (by rw [h])
    else .isFalse (by intro hc; injection hc; exact h ‹_›)

/-- Database state observable after the request: on error the transaction
rolled back, so the caller's state is unchanged. -/
def dispenseOutcome (db : DB) (c : Clock) (pid : Nat) (req : DispenseRequest) : DB :=
  match dispense db c pid req with
  | .error _ => db
  | .ok (db', _) => db'

/-- The `data` object of the route's HTTP 200 response. -/
structure DispenseResponseData where
  dispensalNo : String
  prescriptionNo : String
  studentName : String
  totalAmount : ℚ
  amountPaid : ℚ
  change : ℚ
  deriving DecidableEq, Repr

/-- Building the HTTP 200 response body from the transaction result:
`change: amountPaid - totalAmount` with no flooring; accessing
`student.firstName` crashes when the included student is `null`. -/
def buildResponse (res : DispenseResult) (req : DispenseRequest) :
    Option DispenseResponseData :=
  res.student.map (fun s =>
    { dispensalNo := res.dispensal.dispensalNo
      prescriptionNo := res.prescription.prescriptionNo
      studentName := s.firstName ++ " " ++ s.lastName
      totalAmount := req.totalAmount
      amountPaid := req.amountPaid
      change := req.amountPaid - req.totalAmount })

/-! ### Inventory adjustment (`PATCH` of the stock-levels route) -/

/-- Result payload of the stock adjustment. -/
structure AdjustResult where
  oldQuantity : Int
  newQuantity : Int
  difference : Int
  deriving DecidableEq, Repr

/-- `PATCH /pharmacist/inventory/stock`: find the product by id (404-style
error when missing), then overwrite its quantity with the request's value —
the route validates nothing about the new quantity. -/
def adjustStock (db : DB) (productId : Nat) (quantity : Int) :
    Except Unit (DB × AdjustResult) :=
  match findProduct db.products productId with
  | none => .error ()
  | some p =>
    .ok ({ db with
           products := db.products.map (fun q =>
             if q.id == productId then { q with quantity := quantity } else q) },
         { oldQuantity := p.quantity
           newQuantity := quantity
           difference := quantity - p.quantity })

/-! ### Pending-prescriptions queue (second route of
`src/app/api/pharmacist/dashboard/route.ts`) -/

/-- Composite `orderBy: [{ priority: 'asc' }, { createdAt: 'asc' }]`. -/
def pendingLE (a b : Prescription) : Prop :=
  priorityRank a.priority < priorityRank b.priority ∨
    (priorityRank a.priority = priorityRank b.priority ∧ a.createdAt ≤ b.createdAt)

instance : DecidableRel pendingLE := fun a b =>
  inferInstanceAs (Decidable
    (priorityRank a.priority < priorityRank b.priority ∨
      (priorityRank a.priority = priorityRank b.priority ∧ a.createdAt ≤ b.createdAt)))

instance : IsTotal Prescription pendingLE :=
  ⟨fun a b => by unfold pendingLE; omega⟩

instance : IsTrans Prescription pendingLE :=
  ⟨fun a b c hab hbc => by unfold pendingLE at hab hbc ⊢; omega⟩

/-- Query parameters of the pending-prescriptions `GET`. -/
structure PendingQuery where
  priority : Option String
  search : Option String
  page : Nat
  limit : Nat
  deriving DecidableEq, Repr

/-- Case-insensitive substring test (`contains` with `mode: 'insensitive'`). -/
def ciContains (hay needle : String) : Bool :=
  decide (needle.toLower.toList <:+: hay.toLower.toList)

/-- `if (priority && priority !== 'all') whereClause.priority = priority`. -/
def priorityFilterMatch (q : PendingQuery) (pr : Prescription) : Bool :=
  match q.priority with
  | none => true
  | some s => if s = "" || s = "all" then true else priorityName pr.priority == s

/-- The `OR` search filter over prescription number and student names. -/
def searchFilterMatch (db : DB) (q : PendingQuery) (pr : Prescription) : Bool :=
  match q.search with
  | none => true
  | some s =>
    if s = "" then true
    else
      ciContains pr.prescriptionNo s ||
        (match findStudent db pr.studentId with
         | none => false
         | some st =>
           ciContains st.firstName s || ciContains st.lastName s ||
             ciContains st.matricNumber s)

/-- Full `where` clause of the pending-prescriptions query. -/
def pendingWhere (db : DB) (q : PendingQuery) (pr : Prescription) : Bool :=
  pr.status == "pending" && !pr.isDeleted && priorityFilterMatch q pr &&
    searchFilterMatch db q pr

/-- The page of prescriptions the endpoint returns: filter, sort by
`(priority, createdAt)`, then `skip`/`take`. -/
def pendingPrescriptions (db : DB) (q : PendingQuery) : List Prescription :=
  (((db.prescriptions.filter (pendingWhere db q)).insertionSort pendingLE).drop
      ((q.page - 1) * q.limit)).take q.limit

/-- One element of the formatted `items` array of a pending prescription. -/
structure FormattedItem where
  id : Nat
  drugName : String
  quantity : Int
  available : Int
  hasStock : Bool
  unitPrice : ℚ
  totalPrice : ℚ
  deriving DecidableEq, Repr

/-- The `include: { product: true }` join on a prescription's items; `none`
when some item's product relation is missing. -/
def joinedItems (ps : List Product) :
    List PrescriptionItem → Option (List (PrescriptionItem × Product))
  | [] => some []
  | it :: rest =>
    match findProduct ps it.productId, joinedItems ps rest with
    | some p, some l => some ((it, p) :: l)
    | _, _ => none

/-- Formatting of one joined item; `hasStock` is
`item.product.quantity >= item.quantityPrescribed`. -/
def formatPendingItem (x : PrescriptionItem × Product) : FormattedItem :=
  { id := x.1.id
    drugName := x.2.name
    quantity := x.1.quantityPrescribed
    available := x.2.quantity
    hasStock := decide (x.2.quantity ≥ x.1.quantityPrescribed)
    unitPrice := x.1.unitPrice
    totalPrice := x.1.totalPrice }

/-- `hasStockIssues: prescriptionItems.some(item =>
item.product.quantity < item.quantityPrescribed)`. -/
def hasStockIssuesOf (joined : List (PrescriptionItem × Product)) : Bool :=
  joined.any (fun x => decide (x.2.quantity < x.1.quantityPrescribed))

/-! ### Dispensing preconditions as worded by the claims -/

/-- Requested entry whose `itemId` belongs to none of the prescription's
items. -/
def itemUnknownB (db : DB) (presc : Prescription) (d : ReqItem) : Bool :=
  (prescriptionItemsOf db presc.id).all (fun it => it.id != d.itemId)

/-- Requested entry whose prescription item exists but whose item's product
has stock strictly below the requested dispense quantity. -/
def itemShortB (db : DB) (presc : Prescription) (d : ReqItem) : Bool :=
  (prescriptionItemsOf db presc.id).any (fun it =>
    it.id == d.itemId &&
      match findProduct db.products it.productId with
      | none => false
      | some p => decide (p.quantity < d.quantityDispensed))

/-- Disjunction of the dispensing preconditions named by the claims:
no live prescription, status not pending, a requested item id outside the
prescription's item set, or insufficient stock for a requested item. -/
def precondViolatedB (db : DB) (pid : Nat) (req : DispenseRequest) : Bool :=
  match findPrescription db pid with
  | none => true
  | some presc =>
    presc.status != "pending" ||
      req.dispensedItems.any (fun d => itemUnknownB db presc d || itemShortB db presc d)

/-! ### Concrete fixtures used by witnesses and counterexamples -/

/-- Product with ample stock. -/
def prodA : Product :=
  { id := 1, name := "Amoxicillin", quantity := 100, reorderLevel := some 10,
    isDeleted := false }

/-- Product with zero stock. -/
def prodB : Product :=
  { id := 2, name := "Ibuprofen", quantity := 0, reorderLevel := none,
    isDeleted := false }

/-- A patient on file. -/
def stuAda : Student :=
  { id := 5, firstName := "Ada", lastName := "Obi", matricNumber := "M001" }

/-- A live pending prescription for `stuAda`. -/
def presc10 : Prescription :=
  { id := 10, prescriptionNo := "RX-10", studentId := 5, status := "pending",
    priority := .normal, isDispensed := false, dispensedAt := none,
    dispensedBy := none, amountPaid := 0, totalCost := 10, createdAt := 1000,
    isDeleted := false }

/-- First item of `presc10`, referencing `prodA`, ten prescribed. -/
def item100 : PrescriptionItem :=
  { id := 100, prescriptionId := 10, productId := 1, quantityPrescribed := 10,
    quantityDispensed := 0, isDispensed := false, dispensedAt := none,
    dispensedBy := none, unitPrice := 1, totalPrice := 10 }

/-- Second item of `presc10`, also referencing `prodA`. -/
def item101 : PrescriptionItem :=
  { id := 101, prescriptionId := 10, productId := 1, quantityPrescribed := 3,
    quantityDispensed := 0, isDispensed := false, dispensedAt := none,
    dispensedBy := none, unitPrice := 1, totalPrice := 3 }

/-- Fixture database: one pending prescription with a single item on
`prodA`, plus the zero-stock `prodB`. -/
def dbOne : DB :=
  { products := [prodA, prodB], students := [stuAda], prescriptions := [presc10],
    items := [item100], dispensals := [], balanceTxns := [] }

/-- Fixture database: same prescription with two items. -/
def dbTwo : DB :=
  { products := [prodA, prodB], students := [stuAda], prescriptions := [presc10],
    items := [item100, item101], dispensals := [], balanceTxns := [] }

/-- A fixed request clock. -/
def clock0 : Clock := { year := 2026, millis := 1760054400000 }

/-- Request template with one entry. -/
def mkReq (items : List ReqItem) (total paid : ℚ) : DispenseRequest :=
  { dispensedItems := items, totalAmount := total, amountPaid := paid,
    paymentMethod := "cash", notes := "", dispensedBy := "ph-1" }

/-- Request whose `productId` names no product row. -/
def reqBogusProduct : DispenseRequest := mkReq [⟨100, 1, 999⟩] 10 0

/-- Request whose `productId` names `prodB` instead of the item's product. -/
def reqCrossProduct : DispenseRequest := mkReq [⟨100, 10, 2⟩] 10 10

/-- Request listing the same prescription item twice. -/
def reqDup : DispenseRequest := mkReq [⟨100, 3, 1⟩, ⟨100, 3, 1⟩] 6 0

/-- Well-formed request dispensing the single item of `dbOne` in full. -/
def reqFull : DispenseRequest := mkReq [⟨100, 5, 1⟩] 5 5

/-- Well-formed request dispensing one of the two items of `dbTwo`, paying
less than the total. -/
def reqPartial : DispenseRequest := mkReq [⟨100, 5, 1⟩] 5 4

/-- Committed state and result of the successful full dispense on `dbOne`. -/
def runFull : DB × DispenseResult :=
  ((dispense dbOne clock0 10 reqFull).toOption).get (by decide)

/-- Committed state and result of the successful partial dispense on
`dbTwo`. -/
def runPartial : DB × DispenseResult :=
  ((dispense dbTwo clock0 10 reqPartial).toOption).get (by decide)

/-- HTTP response data of the successful partial dispense on `dbTwo`. -/
def respPartial : DispenseResponseData :=
  (buildResponse runPartial.2 reqPartial).get (by decide)

/-! ## Helper lemmas -/

/-- Among non-deleted products, the positive-quantity ones and the
zero-quantity ones do not outnumber the whole list. -/
lemma length_filter_pos_add_zero_le (l : List Product) :
    (l.filter (fun p => decide (0 < p.quantity))).length +
      (l.filter (fun p => decide (p.quantity = 0))).length ≤ l.length := by
  induction l with
  | nil => simp
  | cons a t ih =>
    by_cases h0 : (0 : Int) < a.quantity <;> by_cases h1 : a.quantity = 0 <;>
      simp [List.filter, h0, h1] <;> omega

/-- Searching an appended list skips a prefix on which the predicate finds
nothing. -/
lemma find?_append_of_none {α : Type} {p : α → Bool} {l₁ l₂ : List α}
    (h : l₁.find? p = none) : (l₁ ++ l₂).find? p = l₂.find? p := by
  induction l₁ with
  | nil => rfl
  | cons a t ih =>
    rw [List.find?_cons] at h
    cases hpa : p a with
    | true => rw [hpa] at h; cases h
    | false =>
      rw [hpa] at h
      rw [List.cons_append, List.find?_cons, hpa]
      exact ih h

/-- Mapping after an id-preserving rewrite leaves the mapped ids alone. -/
lemma map_id_of_pointwise {α β : Type} (f : α → β) (g : α → α) (l : List α)
    (h : ∀ a, f (g a) = f a) : (l.map g).map f = l.map f := by
  induction l with
  | nil => rfl
  | cons a t ih => simp only [List.map_cons, h, ih]

/-- The item update keeps the row id. -/
lemma markItemDispensed_id (now : Nat) (oper : String) (d : ReqItem)
    (it : PrescriptionItem) : (markItemDispensed now oper d it).id = it.id := by
  unfold markItemDispensed; split <;> rfl

/-- The inventory decrement keeps the row id. -/
lemma decrementProduct_id (d : ReqItem) (p : Product) :
    (if p.id == d.productId then
      { p with quantity := p.quantity - d.quantityDispensed } else p).id = p.id := by
  split <;> rfl

/-- When some requested entry violates the item-membership or
stock-sufficiency precondition, the verification loop reports an error. -/
lemma checkStock_isSome_of_bad (db : DB) (presc : Prescription)
    (hU : ((prescriptionItemsOf db presc.id).map (fun it => it.id)).Nodup) :
    ∀ l : List ReqItem,
      (∃ d ∈ l, itemUnknownB db presc d = true ∨ itemShortB db presc d = true) →
      (checkStock db (prescriptionItemsOf db presc.id) l).isSome = true := by
  intro l
  induction l with
  | nil => rintro ⟨d, hd, _⟩; cases hd
  | cons d rest ih =>
    rintro ⟨d0, hd0, hb⟩
    cases hfind : (prescriptionItemsOf db presc.id).find?
        (fun it => it.id == d.itemId) with
    | none => simp [checkStock, hfind]
    | some it =>
      simp only [checkStock, hfind]
      cases hp : findProduct db.products it.productId with
      | none => simp
      | some p =>
        simp only [hp]
        by_cases hlt : p.quantity < d.quantityDispensed
        · simp [hlt]
        · rw [if_neg hlt]
          rcases List.mem_cons.mp hd0 with rfl | hmem
          · exfalso
            have hmemIt := List.mem_of_find?_eq_some hfind
            have hpred := List.find?_some hfind
            have hidIt : it.id = d0.itemId := by simpa using hpred
            rcases hb with hunk | hsh
            · rw [itemUnknownB, List.all_eq_true] at hunk
              have := hunk it hmemIt
              simp only [bne_iff_ne, ne_eq] at this
              exact this hidIt
            · rw [itemShortB, List.any_eq_true] at hsh
              obtain ⟨it', hit', hcond⟩ := hsh
              rw [Bool.and_eq_true] at hcond
              obtain ⟨hid', hmat⟩ := hcond
              have hidIt' : it'.id = d0.itemId := by simpa using hid'
              have heq : it' = it :=
                List.inj_on_of_nodup_map hU hit' hmemIt (hidIt'.trans hidIt.symm)
              subst heq
              rw [hp] at hmat
              simp only [decide_eq_true_eq] at hmat
              exact hlt hmat
          · exact ih ⟨d0, hmem, hb⟩

/-- When no requested entry violates a precondition and every item's
product relation resolves, the verification loop passes. -/
lemma checkStock_none_of_ok (db : DB) (presc : Prescription)
    (hFK : ∀ it ∈ db.items, (findProduct db.products it.productId).isSome = true) :
    ∀ l : List ReqItem,
      (∀ d ∈ l, itemUnknownB db presc d = false ∧ itemShortB db presc d = false) →
      checkStock db (prescriptionItemsOf db presc.id) l = none := by
  intro l
  induction l with
  | nil => intro _; rfl
  | cons d rest ih =>
    intro hok
    obtain ⟨hunk, hsh⟩ := hok d (List.mem_cons_self d rest)
    cases hfind : (prescriptionItemsOf db presc.id).find?
        (fun it => it.id == d.itemId) with
    | none =>
      exfalso
      rw [List.find?_eq_none] at hfind
      have : itemUnknownB db presc d = true := by
        rw [itemUnknownB, List.all_eq_true]
        intro it hit
        have := hfind it hit
        simpa using this
      rw [hunk] at this
      cases this
    | some it =>
      have hmemIt := List.mem_of_find?_eq_some hfind
      have hidEq : it.id = d.itemId := by
        have h0 := List.find?_some hfind
        simpa using h0
      have hmemDb : it ∈ db.items := List.mem_of_mem_filter hmemIt
      obtain ⟨p, hp⟩ := Option.isSome_iff_exists.mp (hFK it hmemDb)
      simp only [checkStock, hfind, hp]
      by_cases hlt : p.quantity < d.quantityDispensed
      · exfalso
        have : itemShortB db presc d = true := by
          rw [itemShortB, List.any_eq_true]
          refine ⟨it, hmemIt, ?_⟩
          rw [Bool.and_eq_true]
          exact ⟨by simp [hidEq], by rw [hp]; simpa using hlt⟩
        rw [hsh] at this
        cases this
      · rw [if_neg hlt]
        exact ih (fun d' hd' => hok d' (List.mem_cons_of_mem d hd'))

/-- Shape of an insufficient-stock report: it carries the offending item's
product name together with the available and required quantities. -/
lemma checkStock_insufficient_inv (db : DB) (pItems : List PrescriptionItem) :
    ∀ (l : List ReqItem) (n : String) (a r : Int),
      checkStock db pItems l = some (.insufficientStock n a r) →
      ∃ d ∈ l, ∃ it ∈ pItems, it.id = d.itemId ∧
        ∃ p, findProduct db.products it.productId = some p ∧
          p.name = n ∧ p.quantity = a ∧ d.quantityDispensed = r ∧
          p.quantity < d.quantityDispensed := by
  intro l
  induction l with
  | nil => intro n a r h; simp [checkStock] at h
  | cons d rest ih =>
    intro n a r h
    cases hfind : pItems.find? (fun it => it.id == d.itemId) with
    | none => simp [checkStock, hfind] at h
    | some it =>
      simp only [checkStock, hfind] at h
      cases hp : findProduct db.products it.productId with
      | none => simp [hp] at h
      | some p =>
        simp only [hp] at h
        by_cases hlt : p.quantity < d.quantityDispensed
        · rw [if_pos hlt] at h
          have hinj := Option.some.inj h
          injection hinj with h1 h2 h3
          have hidIt : it.id = d.itemId := by
            have := List.find?_some hfind
            simpa using this
          exact ⟨d, List.mem_cons_self d rest, it, List.mem_of_find?_eq_some hfind,
            hidIt, p, hp, h1, h2, h3, hlt⟩
        · rw [if_neg hlt] at h
          obtain ⟨d', hd', hrest⟩ := ih n a r h
          exact ⟨d', List.mem_cons_of_mem d hd', hrest⟩

/-- Success of the update loop leaves every other table untouched and
preserves the id sequences of the item and product tables. -/
lemma applyItemUpdates_ok_inv (now : Nat) (oper : String) :
    ∀ (l : List ReqItem) (db db' : DB),
      applyItemUpdates now oper db l = .ok db' →
      db'.prescriptions = db.prescriptions ∧ db'.dispensals = db.dispensals ∧
        db'.balanceTxns = db.balanceTxns ∧ db'.students = db.students ∧
        db'.items.map (fun it => it.id) = db.items.map (fun it => it.id) ∧
        db'.products.map (fun p => p.id) = db.products.map (fun p => p.id) := by
  intro l
  induction l with
  | nil =>
    intro db db' h
    simp only [applyItemUpdates] at h
    injection h with h
    subst h
    exact ⟨rfl, rfl, rfl, rfl, rfl, rfl⟩
  | cons d rest ih =>
    intro db db' h
    simp only [applyItemUpdates] at h
    by_cases h1 : db.items.any (fun it => it.id == d.itemId) = true
    · rw [if_pos h1] at h
      by_cases h2 : db.products.any (fun p => p.id == d.productId) = true
      · rw [if_pos h2] at h
        obtain ⟨e1, e2, e3, e4, e5, e6⟩ := ih _ _ h
        refine ⟨e1, e2, e3, e4, ?_, ?_⟩
        · rw [e5]
          exact map_id_of_pointwise _ _ _ (markItemDispensed_id now oper d)
        · rw [e6]
          exact map_id_of_pointwise _ _ _ (decrementProduct_id d)
      · rw [if_neg h2] at h
        exact Except.noConfusion h
    · rw [if_neg h1] at h
      exact Except.noConfusion h

/-- When every requested entry's item and product rows are present, the
update loop succeeds. -/
lemma applyItemUpdates_ok (now : Nat) (oper : String) :
    ∀ (l : List ReqItem) (db : DB),
      (∀ d ∈ l, d.itemId ∈ db.items.map (fun it => it.id) ∧
        d.productId ∈ db.products.map (fun p => p.id)) →
      ∃ db', applyItemUpdates now oper db l = .ok db' := by
  intro l
  induction l with
  | nil => intro db _; exact ⟨db, rfl⟩
  | cons d rest ih =>
    intro db hpres
    obtain ⟨hi, hp⟩ := hpres d (List.mem_cons_self d rest)
    have h1 : db.items.any (fun it => it.id == d.itemId) = true := by
      rw [List.any_eq_true]
      obtain ⟨it, hit, hid⟩ := List.mem_map.mp hi
      exact ⟨it, hit, by simp [hid]⟩
    have h2 : db.products.any (fun p => p.id == d.productId) = true := by
      rw [List.any_eq_true]
      obtain ⟨p, hpm, hpid⟩ := List.mem_map.mp hp
      exact ⟨p, hpm, by simp [hpid]⟩
    simp only [applyItemUpdates]
    rw [if_pos h1, if_pos h2]
    apply ih
    intro d' hd'
    obtain ⟨hi', hp'⟩ := hpres d' (List.mem_cons_of_mem d hd')
    constructor
    · show d'.itemId ∈ (db.items.map (markItemDispensed now oper d)).map
        (fun it => it.id)
      rw [map_id_of_pointwise _ _ _ (markItemDispensed_id now oper d)]
      exact hi'
    · show d'.productId ∈ (db.products.map (fun p =>
        if p.id == d.productId then
          { p with quantity := p.quantity - d.quantityDispensed } else p)).map
        (fun p => p.id)
      rw [map_id_of_pointwise _ _ _ (decrementProduct_id d)]
      exact hp'

/-- The update loop only ever fails with a record-not-found shape. -/
lemma applyItemUpdates_error_shape (now : Nat) (oper : String) :
    ∀ (l : List ReqItem) (db : DB) (e : DispenseError),
      applyItemUpdates now oper db l = .error e →
      (∃ i, e = .itemRowMissing i) ∨ ∃ i, e = .productRowMissing i := by
  intro l
  induction l with
  | nil => intro db e h; simp [applyItemUpdates] at h
  | cons d rest ih =>
    intro db e h
    simp only [applyItemUpdates] at h
    by_cases h1 : db.items.any (fun it => it.id == d.itemId) = true
    · rw [if_pos h1] at h
      by_cases h2 : db.products.any (fun p => p.id == d.productId) = true
      · rw [if_pos h2] at h
        exact ih _ _ h
      · rw [if_neg h2] at h
        injection h with h
        exact Or.inr ⟨_, h.symm⟩
    · rw [if_neg h1] at h
      injection h with h
      exact Or.inl ⟨_, h.symm⟩

/-- A violated precondition makes the whole transaction throw. -/
lemma dispense_error_of_violatedB (db : DB) (c : Clock) (pid : Nat)
    (req : DispenseRequest)
    (hU : (db.items.map (fun it => it.id)).Nodup)
    (hviol : precondViolatedB db pid req = true) :
    ∃ e, dispense db c pid req = .error e := by
  rw [precondViolatedB] at hviol
  cases hfind : findPrescription db pid with
  | none =>
    refine ⟨.notFound, ?_⟩
    simp [dispense, hfind]
  | some presc =>
    rw [hfind] at hviol
    by_cases hst : presc.status = "pending"
    · have hany : req.dispensedItems.any
          (fun d => itemUnknownB db presc d || itemShortB db presc d) = true := by
        simpa [hst] using hviol
      have hbad : ∃ d ∈ req.dispensedItems,
          itemUnknownB db presc d = true ∨ itemShortB db presc d = true := by
        rw [List.any_eq_true] at hany
        obtain ⟨d, hd, hor⟩ := hany
        exact ⟨d, hd, by simpa using hor⟩
      have hUp : ((prescriptionItemsOf db presc.id).map (fun it => it.id)).Nodup := by
        have hsub : List.Sublist
            ((prescriptionItemsOf db presc.id).map (fun it => it.id))
            (db.items.map (fun it => it.id)) :=
          (List.filter_sublist db.items).map (fun it => it.id)
        exact hU.sublist hsub
      have hsome := checkStock_isSome_of_bad db presc hUp req.dispensedItems hbad
      obtain ⟨e, he⟩ := Option.isSome_iff_exists.mp hsome
      refine ⟨e, ?_⟩
      simp [dispense, hfind, hst, he]
    · refine ⟨.notPending, ?_⟩
      simp only [dispense, hfind]
      rw [if_pos hst]

/-- Inversion of a committed dispense: the shape of the final state and of
the transaction result. -/
lemma dispense_ok_inv (db : DB) (c : Clock) (pid : Nat) (req : DispenseRequest)
    (db' : DB) (res : DispenseResult)
    (h : dispense db c pid req = .ok (db', res)) :
    ∃ presc db2,
      findPrescription db pid = some presc ∧ presc.id = pid ∧
        presc.status = "pending" ∧
        checkStock db (prescriptionItemsOf db presc.id) req.dispensedItems = none ∧
        applyItemUpdates c.millis req.dispensedBy
          { db with dispensals := db.dispensals ++ [mkDispensal c presc req] }
          req.dispensedItems = .ok db2 ∧
        res.dispensal = mkDispensal c presc req ∧
        res.prescription = { presc with status :=
          if req.dispensedItems.length == (prescriptionItemsOf db presc.id).length
          then "dispensed" else "partially_dispensed" } ∧
        res.student = findStudent db presc.studentId ∧
        db'.prescriptions = db2.prescriptions.map
          (updatePrescriptionRow presc.id
            (req.dispensedItems.length == (prescriptionItemsOf db presc.id).length)
            c.millis req.dispensedBy req.amountPaid) ∧
        db'.dispensals = db2.dispensals ∧
        db'.items = db2.items ∧
        db'.products = db2.products ∧
        db'.students = db2.students := by
  cases hfind : findPrescription db pid with
  | none => simp [dispense, hfind] at h
  | some presc =>
    simp only [dispense, hfind] at h
    have hid : presc.id = pid := by
      have hfind' := hfind
      rw [findPrescription] at hfind'
      have hpred := List.find?_some hfind'
      rw [Bool.and_eq_true] at hpred
      simpa using hpred.1
    by_cases hst : presc.status = "pending"
    · rw [if_neg (by simp [hst])] at h
      cases hcs : checkStock db (prescriptionItemsOf db presc.id)
          req.dispensedItems with
      | some e => simp [hcs] at h
      | none =>
        simp only [hcs] at h
        cases happ : applyItemUpdates c.millis req.dispensedBy
            { db with dispensals := db.dispensals ++ [mkDispensal c presc req] }
            req.dispensedItems with
        | error e => simp [happ] at h
        | ok db2 =>
          simp only [happ] at h
          by_cases hpaid : req.amountPaid > 0
          · rw [if_pos hpaid] at h
            injection h with h
            obtain ⟨h4, hres⟩ := Prod.mk.injEq .. |>.mp h
            subst h4
            subst hres
            exact ⟨presc, db2, rfl, hid, hst, hcs, happ, rfl, rfl, rfl, rfl,
              rfl, rfl, rfl, rfl⟩
          · rw [if_neg hpaid] at h
            injection h with h
            obtain ⟨h4, hres⟩ := Prod.mk.injEq .. |>.mp h
            subst h4
            subst hres
            exact ⟨presc, db2, rfl, hid, hst, hcs, happ, rfl, rfl, rfl, rfl,
              rfl, rfl, rfl, rfl⟩
    · rw [if_pos hst] at h
      simp at h

/-- An `Except` whose `toOption` is populated is the corresponding `ok`. -/
lemma except_eq_ok_toOption {ε α : Type} (e : Except ε α)
    (h : e.toOption.isSome = true) : e = .ok (e.toOption.get h) := by
  cases e with
  | ok v => rfl
  | error a => simp [Except.toOption] at h

/-- When no claimed precondition is violated and all row references
resolve, the transaction commits. -/
lemma dispense_ok_of_not_violated (db : DB) (c : Clock) (pid : Nat)
    (req : DispenseRequest)
    (hFK : ∀ it ∈ db.items, (findProduct db.products it.productId).isSome = true)
    (hReq : ∀ d ∈ req.dispensedItems,
      d.productId ∈ db.products.map (fun p => p.id))
    (hv : precondViolatedB db pid req = false) :
    ∃ pair, dispense db c pid req = .ok pair := by
  cases hfind : findPrescription db pid with
  | none => simp [precondViolatedB, hfind] at hv
  | some presc =>
    simp only [precondViolatedB, hfind] at hv
    have h1 : (presc.status != "pending") = false := by
      cases hq : (presc.status != "pending")
      · rfl
      · rw [hq] at hv; simp at hv
    have hst : presc.status = "pending" := by simpa using h1
    have h2 : (req.dispensedItems.any
        (fun d => itemUnknownB db presc d || itemShortB db presc d)) = false := by
      cases hq : (req.dispensedItems.any
          (fun d => itemUnknownB db presc d || itemShortB db presc d))
      · rfl
      · rw [hq] at hv; simp at hv
    have hok : ∀ d ∈ req.dispensedItems,
        itemUnknownB db presc d = false ∧ itemShortB db presc d = false := by
      intro d hd
      have hq : (itemUnknownB db presc d || itemShortB db presc d) = false := by
        by_contra hne
        have htrue : (itemUnknownB db presc d || itemShortB db presc d) = true := by
          cases hc : (itemUnknownB db presc d || itemShortB db presc d)
          · exact absurd hc hne
          · rfl
        have : req.dispensedItems.any
            (fun d => itemUnknownB db presc d || itemShortB db presc d) = true :=
          List.any_eq_true.mpr ⟨d, hd, htrue⟩
        rw [this] at h2; cases h2
      constructor
      · cases hu : itemUnknownB db presc d
        · rfl
        · rw [hu] at hq; simp at hq
      · cases hs : itemShortB db presc d
        · rfl
        · rw [hs] at hq; simp at hq
    have hnone : checkStock db (prescriptionItemsOf db presc.id)
        req.dispensedItems = none :=
      checkStock_none_of_ok db presc hFK req.dispensedItems hok
    have hcond : ∀ d ∈ req.dispensedItems,
        d.itemId ∈ ({ db with
          dispensals := db.dispensals ++ [mkDispensal c presc req] } : DB).items.map
            (fun it => it.id) ∧
        d.productId ∈ ({ db with
          dispensals := db.dispensals ++ [mkDispensal c presc req] } : DB).products.map
            (fun p => p.id) := by
      intro d hd
      refine ⟨?_, hReq d hd⟩
      have hu := (hok d hd).1
      rw [itemUnknownB] at hu
      have : ∃ it ∈ prescriptionItemsOf db presc.id,
          (it.id != d.itemId) = false := by
        by_contra hne
        push_neg at hne
        have : (prescriptionItemsOf db presc.id).all
            (fun it => it.id != d.itemId) = true := by
          rw [List.all_eq_true]
          intro it hit
          cases hb : (it.id != d.itemId)
          · exact absurd hb (hne it hit)
          · rfl
        rw [this] at hu; cases hu
      obtain ⟨it, hit, hbne⟩ := this
      have hideq : it.id = d.itemId := by simpa using hbne
      exact List.mem_map.mpr ⟨it, List.mem_of_mem_filter hit, hideq⟩
    obtain ⟨db2, happ⟩ := applyItemUpdates_ok c.millis req.dispensedBy
      req.dispensedItems
      { db with dispensals := db.dispensals ++ [mkDispensal c presc req] } hcond
    exact ⟨_, by
      simp only [dispense, hfind]
      rw [if_neg (by simp [hst])]
      simp only [hnone, happ]
      rfl⟩

/-! ## Claim theorems -/

/-- C5 counterexample: with `reorderLevel = 0` present and `quantity = 5`,
the code classifies `low_stock` (the JS `||` default also fires on zero),
while the claim's reading — default only when `reorderLevel` is absent —
classifies `healthy`. -/
theorem stockStatus_zero_reorder_counterexample :
    stockStatus 5 (some 0) = .low_stock ∧
      claimStockStatus 5 (some 0) = .healthy ∧
      stockStatus 5 (some 0) ≠ claimStockStatus 5 (some 0) := by
  decide

/-- C5 (amended): for every non-negative quantity, classification is
`out_of_stock` iff the quantity is zero, `low_stock` iff it is positive and
at most the threshold, `healthy` iff it exceeds the threshold, where the
threshold defaults to 10 when `reorderLevel` is absent *or zero*; the stock
percentage is `min(quantity / threshold * 100, 100)`. -/
theorem stockStatus_classification (q : Int) (r : Option Int) (hq : 0 ≤ q) :
    (stockStatus q r = .out_of_stock ↔ q = 0) ∧
      (stockStatus q r = .low_stock ↔ 0 < q ∧ q ≤ reorderThreshold r) ∧
      (stockStatus q r = .healthy ↔ 0 < q ∧ reorderThreshold r < q) ∧
      stockPercentage q r = min (((q : ℚ) / (reorderThreshold r : ℚ)) * 100) 100 := by
  unfold stockStatus stockPercentage
  refine ⟨?_, ?_, ?_, rfl⟩ <;> split_ifs with h1 h2 <;> simp_all <;> omega

/-- C5 witness: the amended classification at `quantity = 5`,
`reorderLevel = 0`. -/
theorem stockStatus_classification_witness :
    (0 : Int) ≤ 5 ∧
      (stockStatus 5 (some 0) = .low_stock ↔
        (0 : Int) < 5 ∧ (5 : Int) ≤ reorderThreshold (some 0)) :=
  ⟨by decide, (stockStatus_classification 5 (some 0) (by decide)).2.1⟩

/-- C9: the stock-levels summary satisfies `inStock + outOfStock =
totalDrugs` and `lowStock ≤ inStock`; `outOfStock` counts non-deleted
products with zero quantity, `inStock` is defined as `totalDrugs -
outOfStock`, and `lowStock` counts non-deleted products with positive
quantity passing the low-stock threshold test. -/
theorem stock_summary_consistent (ps : List Product) :
    inStockCount ps + outOfStockCount ps = totalDrugs ps ∧
      lowStockCount ps ≤ inStockCount ps ∧
      outOfStockCount ps =
        ((liveProducts ps).filter (fun p => p.quantity = 0)).length ∧
      inStockCount ps = totalDrugs ps - outOfStockCount ps ∧
      lowStockCount ps =
        ((liveProducts ps).filter (fun p =>
          0 < p.quantity ∧ lowStockTest p.quantity p.reorderLevel = true)).length := by
  refine ⟨by unfold inStockCount; ring, ?_, rfl, rfl, ?_⟩
  · have h1 : (((liveProducts ps).filter (fun p => decide (0 < p.quantity))).filter
        (fun p => lowStockTest p.quantity p.reorderLevel)).length ≤
        ((liveProducts ps).filter (fun p => decide (0 < p.quantity))).length :=
      List.length_filter_le _ _
    have h2 := length_filter_pos_add_zero_le (liveProducts ps)
    unfold lowStockCount inStockCount totalDrugs outOfStockCount
    omega
  · unfold lowStockCount
    rw [List.filter_filter]
    norm_cast
    refine congrArg List.length (List.filter_congr ?_)
    intro a _
    by_cases h0 : (0 : Int) < a.quantity <;>
      by_cases h1 : lowStockTest a.quantity a.reorderLevel = true <;>
        simp [h0, h1]

/-- C6: the pending-prescriptions endpoint returns a page that is sorted by
priority (emergency before urgent before normal) and, within equal
priority, by creation time ascending — for every database state and every
query. -/
theorem pending_list_sorted (db : DB) (q : PendingQuery) :
    List.Sorted pendingLE (pendingPrescriptions db q) := by
  unfold pendingPrescriptions
  have hs := List.sorted_insertionSort pendingLE
    (db.prescriptions.filter (pendingWhere db q))
  exact hs.sublist ((List.take_sublist _ _).trans (List.drop_sublist _ _))

/-- Helper for C10: every pair produced by the `include` join really is the
item together with the product its `productId` references. -/
lemma joinedItems_spec (ps : List Product) :
    ∀ (items : List PrescriptionItem) (joined : List (PrescriptionItem × Product)),
      joinedItems ps items = some joined →
      ∀ x ∈ joined, findProduct ps x.1.productId = some x.2 := by
  intro items
  induction items with
  | nil =>
    intro joined h x hx
    simp only [joinedItems] at h
    cases h
    simp at hx
  | cons it rest ih =>
    intro joined h x hx
    simp only [joinedItems] at h
    cases hp : findProduct ps it.productId with
    | none => rw [hp] at h; simp at h
    | some p =>
      rw [hp] at h
      cases hr : joinedItems ps rest with
      | none => rw [hr] at h; simp at h
      | some l =>
        rw [hr] at h
        simp only [Option.some.injEq] at h
        subst h
        rcases List.mem_cons.mp hx with hx1 | hx2
        · subst hx1; exact hp
        · exact ih l hr x hx2

/-- C10: in the formatted pending-prescription items, `hasStock` is true
iff the referenced product's quantity covers the prescribed quantity, and
the prescription-level `hasStockIssues` flag is true iff some item's
`hasStock` is false. -/
theorem pending_item_flags (db : DB) (items : List PrescriptionItem)
    (joined : List (PrescriptionItem × Product))
    (h : joinedItems db.products items = some joined) :
    (∀ x ∈ joined, findProduct db.products x.1.productId = some x.2) ∧
      (∀ x ∈ joined, ((formatPendingItem x).hasStock = true ↔
        x.1.quantityPrescribed ≤ x.2.quantity)) ∧
      (hasStockIssuesOf joined = true ↔
        ∃ x ∈ joined, (formatPendingItem x).hasStock = false) := by
  refine ⟨joinedItems_spec db.products items joined h, ?_, ?_⟩
  · intro x _
    simp [formatPendingItem, ge_iff_le]
  · unfold hasStockIssuesOf
    rw [List.any_eq_true]
    constructor
    · rintro ⟨x, hx, hlt⟩
      refine ⟨x, hx, ?_⟩
      simp only [decide_eq_true_eq] at hlt
      simp [formatPendingItem, not_le.mpr hlt]
    · rintro ⟨x, hx, hfalse⟩
      refine ⟨x, hx, ?_⟩
      simp only [formatPendingItem, decide_eq_false_iff_not, not_le] at hfalse
      simpa using hfalse

/-- C10 witness: the flags on the joined single item of `dbOne`. -/
theorem pending_item_flags_witness :
    (∀ x ∈ [(item100, prodA)], findProduct dbOne.products x.1.productId = some x.2) ∧
      (∀ x ∈ [(item100, prodA)], ((formatPendingItem x).hasStock = true ↔
        x.1.quantityPrescribed ≤ x.2.quantity)) ∧
      (hasStockIssuesOf [(item100, prodA)] = true ↔
        ∃ x ∈ [(item100, prodA)], (formatPendingItem x).hasStock = false) :=
  pending_item_flags dbOne [item100] [(item100, prodA)] (by decide)

/-- C8: creating a drug whose code is absent among non-deleted drugs
succeeds and the subsequent list has exactly one entry with that code; a
second create with the same code is rejected with a conflict; soft-deleting
the drug removes it from later lists while the row persists with
`isDeleted = true`. -/
theorem drugs_roundtrip (s : DrugStore) (now now2 : Nat) (inp inp2 : DrugInput)
    (hfresh : ∀ d ∈ s.drugs, d.id < s.nextId)
    (hcode : ∀ d ∈ s.drugs, d.isDeleted = false → d.code ≠ inp.code)
    (hinp2 : inp2.code = inp.code) :
    ∃ s1 d1, createDrug s now inp = .ok (s1, d1) ∧ d1.code = inp.code ∧
      (drugsList s1).countP (fun d => d.code == inp.code) = 1 ∧
      createDrug s1 now2 inp2 = .error .conflict ∧
      ∃ s2, deleteDrug s1 d1.id = .ok s2 ∧
        (∀ d ∈ drugsList s2, d.code ≠ inp.code) ∧
        ∃ d2 ∈ s2.drugs, d2.id = d1.id ∧ d2.code = inp.code ∧
          d2.isDeleted = true := by
  have hnone : findLiveByCode s inp.code = none := by
    unfold findLiveByCode
    rw [List.find?_eq_none]
    intro d hd
    simp only [Bool.and_eq_true, beq_iff_eq, Bool.not_eq_true']
    rintro ⟨hc, hdel⟩
    exact hcode d hd hdel hc
  have hdNewLive :
      ({ id := s.nextId
         code := inp.code
         name := inp.name
         quantity := inp.quantity
         reorderLevel := inp.reorderLevel
         unit := match inp.unit with
           | none => "Pieces"
           | some u => if u = "" then "Pieces" else u
         prescriptionRequired := (inp.prescriptionRequired).getD false
         isDeleted := false
         createdAt := now } : Drug).isDeleted = false := rfl
  generalize hdNew :
    ({ id := s.nextId
       code := inp.code
       name := inp.name
       quantity := inp.quantity
       reorderLevel := inp.reorderLevel
       unit := match inp.unit with
         | none => "Pieces"
         | some u => if u = "" then "Pieces" else u
       prescriptionRequired := (inp.prescriptionRequired).getD false
       isDeleted := false
       createdAt := now } : Drug) = dNew at hdNewLive
  have hidNew : dNew.id = s.nextId := by rw [← hdNew]
  have hcodeNew : dNew.code = inp.code := by rw [← hdNew]
  have hcreate : createDrug s now inp =
      .ok ({ drugs := s.drugs ++ [dNew], nextId := s.nextId + 1 }, dNew) := by
    unfold createDrug
    rw [hnone, hdNew]
  refine ⟨_, dNew, hcreate, hcodeNew, ?_, ?_, ?_⟩
  -- exactly one entry with the new code in the list after creation
  · have hperm := List.perm_insertionSort createdDescLE
      ((s.drugs ++ [dNew]).filter (fun d => !d.isDeleted))
    rw [drugsList, hperm.countP_eq, List.filter_append, List.countP_append]
    have h0 : ((s.drugs.filter (fun d => !d.isDeleted)).countP
        (fun d => d.code == inp.code)) = 0 := by
      rw [List.countP_eq_zero]
      intro d hd
      rcases List.mem_filter.mp hd with ⟨hmem, hlive⟩
      simp only [beq_iff_eq]
      exact hcode d hmem (by simpa using hlive)
    rw [h0]
    simp [hdNewLive, hcodeNew]
  -- second creation with the same code conflicts
  · unfold createDrug findLiveByCode
    have : ((s.drugs ++ [dNew]).find?
        (fun d => d.code == inp2.code && !d.isDeleted)) = some dNew := by
      rw [find?_append_of_none]
      · simp [hinp2, hcodeNew, hdNewLive]
      · rw [List.find?_eq_none]
        intro d hd
        simp only [Bool.and_eq_true, beq_iff_eq, Bool.not_eq_true']
        rintro ⟨hc, hdel⟩
        exact hcode d hd hdel (hinp2 ▸ hc)
    simp only [createDrug, findLiveByCode]
    rw [this]
  -- soft delete removes from the list but keeps the row
  · have hfind : ((s.drugs ++ [dNew]).find? (fun d => d.id == dNew.id)) =
        some dNew := by
      rw [find?_append_of_none]
      · simp
      · rw [List.find?_eq_none]
        intro d hd
        simp only [beq_iff_eq, hidNew]
        exact Nat.ne_of_lt (hfresh d hd)
    refine ⟨⟨(s.drugs ++ [dNew]).map (fun d =>
        if d.id == dNew.id then { d with isDeleted := true } else d),
        s.nextId + 1⟩, ?_, ?_, ?_⟩
    · unfold deleteDrug
      rw [hfind]
    · intro d hd
      have hmem : d ∈ ((s.drugs ++ [dNew]).map (fun d =>
          if d.id == dNew.id then { d with isDeleted := true } else d)).filter
          (fun d => !d.isDeleted) := by
        have hperm := List.perm_insertionSort createdDescLE
          (((s.drugs ++ [dNew]).map (fun d =>
            if d.id == dNew.id then { d with isDeleted := true } else d)).filter
            (fun d => !d.isDeleted))
        exact hperm.mem_iff.mp hd
      rcases List.mem_filter.mp hmem with ⟨hmem', hlive⟩
      rw [List.map_append] at hmem'
      rcases List.mem_append.mp hmem' with hmem1 | hmem2
      · rcases List.mem_map.mp hmem1 with ⟨d0, hd0, hval⟩
        have hne : (d0.id == dNew.id) = false := by
          simp only [beq_eq_false_iff_ne, hidNew]
          exact Nat.ne_of_lt (hfresh d0 hd0)
        rw [hne] at hval
        simp only [Bool.false_eq_true, if_false] at hval
        subst hval
        exact hcode d0 hd0 (by simpa using hlive)
      · simp only [List.map_cons, List.map_nil, List.mem_singleton,
          beq_self_eq_true, if_true] at hmem2
        rw [hmem2] at hlive
        simp at hlive
  -- the soft-deleted row still exists
    · refine ⟨{ dNew with isDeleted := true }, ?_, rfl, hcodeNew, rfl⟩
      rw [List.map_append]
      refine List.mem_append.mpr (Or.inr ?_)
      simp

/-- C8 witness: the round trip on an empty store with code `X1`. -/
theorem drugs_roundtrip_witness :
    ∃ s1 d1,
      createDrug ⟨[], 0⟩ 1 ⟨"X1", "Aspirin", 5, 10, none, none⟩ = .ok (s1, d1) ∧
        d1.code = "X1" ∧
        (drugsList s1).countP (fun d => d.code == "X1") = 1 ∧
        createDrug s1 2 ⟨"X1", "Aspirin", 5, 10, none, none⟩ = .error .conflict ∧
        ∃ s2, deleteDrug s1 d1.id = .ok s2 ∧
          (∀ d ∈ drugsList s2, d.code ≠ "X1") ∧
          ∃ d2 ∈ s2.drugs, d2.id = d1.id ∧ d2.code = "X1" ∧
            d2.isDeleted = true :=
  drugs_roundtrip ⟨[], 0⟩ 1 2 ⟨"X1", "Aspirin", 5, 10, none, none⟩
    ⟨"X1", "Aspirin", 5, 10, none, none⟩
    (by intro d hd; cases hd) (by intro d hd; cases hd) rfl

/-- C1: whenever a dispensing precondition fails — no live prescription,
status not pending, a requested item id outside the prescription's item
set, or insufficient stock for a requested item — the transaction throws
and rolls back: the prescription rows, prescription-item rows, product
quantities, dispensal table, and payment ledger are exactly as before. -/
theorem dispense_rollback_on_failed_precondition (db : DB) (c : Clock)
    (pid : Nat) (req : DispenseRequest)
    (hU : (db.items.map (fun it => it.id)).Nodup)
    (hviol : precondViolatedB db pid req = true) :
    (∃ e, dispense db c pid req = .error e) ∧
      dispenseOutcome db c pid req = db ∧
      (dispenseOutcome db c pid req).prescriptions = db.prescriptions ∧
      (dispenseOutcome db c pid req).items = db.items ∧
      (dispenseOutcome db c pid req).products = db.products ∧
      (dispenseOutcome db c pid req).dispensals = db.dispensals ∧
      (dispenseOutcome db c pid req).balanceTxns = db.balanceTxns := by
  obtain ⟨e, he⟩ := dispense_error_of_violatedB db c pid req hU hviol
  have houtcome : dispenseOutcome db c pid req = db := by
    simp [dispenseOutcome, he]
  exact ⟨⟨e, he⟩, houtcome, by rw [houtcome], by rw [houtcome],
    by rw [houtcome], by rw [houtcome], by rw [houtcome]⟩

/-- C1 witness: dispensing a prescription id that does not exist leaves
the fixture database untouched. -/
theorem dispense_rollback_witness :
    ((dbOne.items.map (fun it => it.id)).Nodup ∧
        precondViolatedB dbOne 99 reqFull = true) ∧
      ((∃ e, dispense dbOne clock0 99 reqFull = .error e) ∧
        dispenseOutcome dbOne clock0 99 reqFull = dbOne ∧
        (dispenseOutcome dbOne clock0 99 reqFull).prescriptions =
          dbOne.prescriptions ∧
        (dispenseOutcome dbOne clock0 99 reqFull).items = dbOne.items ∧
        (dispenseOutcome dbOne clock0 99 reqFull).products = dbOne.products ∧
        (dispenseOutcome dbOne clock0 99 reqFull).dispensals =
          dbOne.dispensals ∧
        (dispenseOutcome dbOne clock0 99 reqFull).balanceTxns =
          dbOne.balanceTxns) :=
  ⟨⟨by decide, by decide⟩,
    dispense_rollback_on_failed_precondition dbOne clock0 99 reqFull
      (by decide) (by decide)⟩

/-- C2 counterexample: a request whose entry carries a `productId` that
names no product row makes the transaction fail although none of the four
listed failure conditions holds (the item id is valid and stock is
ample) — the inventory `update` targets the request-supplied product id
and finds no row. -/
theorem dispense_fails_outside_listed_conditions :
    precondViolatedB dbOne 10 reqBogusProduct = false ∧
      dispense dbOne clock0 10 reqBogusProduct =
        .error (.productRowMissing 999) := by
  decide

/-- C2 (amended): with unique item-row ids, resolvable product relations
on stored items, and request entries whose `productId` names an existing
product row, the transaction fails iff the prescription is missing or
soft-deleted, or its status is not pending, or a requested item id is
outside the prescription's item set, or a requested item's product stock
is strictly below the requested quantity; an insufficient-stock error
names the offending product and carries the available and required
quantities. -/
theorem dispense_error_iff_precondition (db : DB) (c : Clock) (pid : Nat)
    (req : DispenseRequest)
    (hU : (db.items.map (fun it => it.id)).Nodup)
    (hFK : ∀ it ∈ db.items, (findProduct db.products it.productId).isSome = true)
    (hReq : ∀ d ∈ req.dispensedItems,
      d.productId ∈ db.products.map (fun p => p.id)) :
    ((∃ e, dispense db c pid req = .error e) ↔
        precondViolatedB db pid req = true) ∧
      (∀ n a r, dispense db c pid req = .error (.insufficientStock n a r) →
        ∃ presc, findPrescription db pid = some presc ∧
          ∃ d ∈ req.dispensedItems, ∃ it ∈ prescriptionItemsOf db presc.id,
            it.id = d.itemId ∧
              ∃ p, findProduct db.products it.productId = some p ∧
                p.name = n ∧ p.quantity = a ∧ d.quantityDispensed = r ∧
                p.quantity < d.quantityDispensed) := by
  constructor
  · constructor
    · rintro ⟨e, he⟩
      by_contra hv
      have hv' : precondViolatedB db pid req = false := by
        cases hb : precondViolatedB db pid req
        · rfl
        · exact absurd hb hv
      obtain ⟨pair, hok⟩ := dispense_ok_of_not_violated db c pid req hFK hReq hv'
      rw [he] at hok
      exact Except.noConfusion hok
    · exact dispense_error_of_violatedB db c pid req hU
  · intro n a r hins
    cases hfind : findPrescription db pid with
    | none => simp [dispense, hfind] at hins
    | some presc =>
      simp only [dispense, hfind] at hins
      by_cases hst : presc.status = "pending"
      · rw [if_neg (by simp [hst])] at hins
        cases hcs : checkStock db (prescriptionItemsOf db presc.id)
            req.dispensedItems with
        | some e =>
          simp only [hcs] at hins
          injection hins with hins
          subst hins
          obtain ⟨d, hd, it, hit, hide, p, hp, h1, h2, h3, hlt⟩ :=
            checkStock_insufficient_inv db (prescriptionItemsOf db presc.id)
              req.dispensedItems n a r hcs
          exact ⟨presc, rfl, d, hd, it, hit, hide, p, hp, h1, h2, h3, hlt⟩
        | none =>
          simp only [hcs] at hins
          cases happ : applyItemUpdates c.millis req.dispensedBy
              { db with dispensals := db.dispensals ++ [mkDispensal c presc req] }
              req.dispensedItems with
          | error e =>
            simp only [happ] at hins
            injection hins with hins
            subst hins
            rcases applyItemUpdates_error_shape c.millis req.dispensedBy
              req.dispensedItems _ _ happ with ⟨i, hsh⟩ | ⟨i, hsh⟩ <;>
              exact DispenseError.noConfusion hsh
          | ok db2 =>
            simp only [happ] at hins
            exact Except.noConfusion hins
      · rw [if_pos hst] at hins
        simp at hins

/-- C2 witness: on the one-item fixture with a well-formed request the
equivalence and the error-content property hold. -/
theorem dispense_error_iff_precondition_witness :
    ((∃ e, dispense dbOne clock0 10 reqFull = .error e) ↔
        precondViolatedB dbOne 10 reqFull = true) ∧
      (∀ n a r, dispense dbOne clock0 10 reqFull =
          .error (.insufficientStock n a r) →
        ∃ presc, findPrescription dbOne 10 = some presc ∧
          ∃ d ∈ reqFull.dispensedItems, ∃ it ∈ prescriptionItemsOf dbOne presc.id,
            it.id = d.itemId ∧
              ∃ p, findProduct dbOne.products it.productId = some p ∧
                p.name = n ∧ p.quantity = a ∧ d.quantityDispensed = r ∧
                p.quantity < d.quantityDispensed) :=
  dispense_error_iff_precondition dbOne clock0 10 reqFull (by decide)
    (by decide) (by decide)

/-- C3: the code commits a dispense whose entry names a *different*
product than the checked one, driving that product's stock to −10; the
invariant that quantity stays non-negative is violated by the code. -/
theorem dispense_negative_stock_at_input :
    (dispense dbOne clock0 10 reqCrossProduct).toOption.isSome = true ∧
      (dispenseOutcome dbOne clock0 10 reqCrossProduct).products.map
        (fun p => p.quantity) = [100, -10] := by
  decide

/-- C4 counterexample: a committed request listing the same item twice on
a two-item prescription sets the status to `dispensed` (count-based
comparison) and stamps `dispensedAt`, although the dispensed items are a
strict subset of the prescription's items (item 101 stays undispensed). -/
theorem dispense_duplicate_count_counterexample :
    (dispense dbTwo clock0 10 reqDup).toOption.isSome = true ∧
      (dispenseOutcome dbTwo clock0 10 reqDup).prescriptions.map
        (fun pr => pr.status) = ["dispensed"] ∧
      (dispenseOutcome dbTwo clock0 10 reqDup).items.map
        (fun it => (it.id, it.isDispensed)) = [(100, true), (101, false)] ∧
      (dispenseOutcome dbTwo clock0 10 reqDup).prescriptions.map
        (fun pr => pr.dispensedAt) = [some clock0.millis] := by
  decide

/-- C4 (amended): on every committed dispense, the target prescription's
status is `dispensed` — with `dispensedAt`/`dispensedBy` stamped — exactly
when the *number* of requested entries equals the prescription's item
count, and `partially_dispensed` — with `dispensedAt`/`dispensedBy` left
unchanged — otherwise; the status is never `pending` afterwards, and all
other prescriptions are untouched.  For duplicate-free requests the count
criterion coincides with dispensing all items versus a strict subset. -/
theorem dispense_status_by_count (db : DB) (c : Clock) (pid : Nat)
    (req : DispenseRequest) (db' : DB) (res : DispenseResult)
    (h : dispense db c pid req = .ok (db', res)) :
    List.Forall₂ (fun pr pr' =>
      (pr.id ≠ pid → pr' = pr) ∧
      (pr.id = pid →
        pr'.status = (if req.dispensedItems.length =
            (prescriptionItemsOf db pid).length
          then "dispensed" else "partially_dispensed") ∧
        pr'.status ≠ "pending" ∧
        (req.dispensedItems.length = (prescriptionItemsOf db pid).length →
          pr'.dispensedAt = some c.millis ∧
            pr'.dispensedBy = some req.dispensedBy) ∧
        (req.dispensedItems.length ≠ (prescriptionItemsOf db pid).length →
          pr'.dispensedAt = pr.dispensedAt ∧ pr'.dispensedBy = pr.dispensedBy)))
      db.prescriptions db'.prescriptions := by
  obtain ⟨presc, db2, hfind, hid, hst, hcs, happ, hrd, hrp, hrs, hp, hdsp,
    hit, hpr, hstu⟩ := dispense_ok_inv db c pid req db' res h
  have hpres2 : db2.prescriptions = db.prescriptions :=
    (applyItemUpdates_ok_inv c.millis req.dispensedBy req.dispensedItems _ _ happ).1
  rw [hid] at hp
  rw [hp, hpres2]
  rw [List.forall₂_map_right_iff, List.forall₂_same]
  intro pr hpr2
  constructor
  · intro hne
    unfold updatePrescriptionRow
    rw [if_neg (by simpa using hne)]
  · intro heq
    unfold updatePrescriptionRow
    rw [if_pos (by simpa using heq)]
    by_cases hlen : req.dispensedItems.length = (prescriptionItemsOf db pid).length
    · have hbeq : (req.dispensedItems.length ==
          (prescriptionItemsOf db pid).length) = true := by simp [hlen]
      rw [hbeq]
      refine ⟨by simp [hlen], by simp, fun _ => ⟨by simp, by simp⟩,
        fun hc => absurd hlen hc⟩
    · have hbeq : (req.dispensedItems.length ==
          (prescriptionItemsOf db pid).length) = false := by simp [hlen]
      rw [hbeq]
      refine ⟨by simp [hlen], by simp, fun hc => absurd hc hlen,
        fun _ => ⟨by simp, by simp⟩⟩

/-- C4 witness: the committed full dispense on the one-item fixture. -/
theorem dispense_status_by_count_witness :
    List.Forall₂ (fun pr pr' =>
      (pr.id ≠ 10 → pr' = pr) ∧
      (pr.id = 10 →
        pr'.status = (if reqFull.dispensedItems.length =
            (prescriptionItemsOf dbOne 10).length
          then "dispensed" else "partially_dispensed") ∧
        pr'.status ≠ "pending" ∧
        (reqFull.dispensedItems.length =
            (prescriptionItemsOf dbOne 10).length →
          pr'.dispensedAt = some clock0.millis ∧
            pr'.dispensedBy = some reqFull.dispensedBy) ∧
        (reqFull.dispensedItems.length ≠
            (prescriptionItemsOf dbOne 10).length →
          pr'.dispensedAt = pr.dispensedAt ∧ pr'.dispensedBy = pr.dispensedBy)))
      dbOne.prescriptions runFull.1.prescriptions :=
  dispense_status_by_count dbOne clock0 10 reqFull runFull.1 runFull.2
    (by decide)

/-- C7 counterexample: a committed dispense paying 4 of a 5 total returns
`change = -1` in the HTTP response — the response's change is
`amountPaid - totalAmount` with no flooring at zero. -/
theorem dispense_change_not_floored :
    ((dispense dbTwo clock0 10 reqPartial).toOption.bind
        (fun x => (buildResponse x.2 reqPartial).map (fun r => r.change))) =
      some (-1) ∧
      ((-1 : ℚ) ≠ max (reqPartial.amountPaid - reqPartial.totalAmount) 0) := by
  constructor
  · have hd : dispense dbTwo clock0 10 reqPartial = .ok runPartial :=
      except_eq_ok_toOption _ (by decide)
    have hb : buildResponse runPartial.2 reqPartial = some respPartial :=
      (Option.some_get _).symm
    rw [hd]
    show (buildResponse runPartial.2 reqPartial).map (fun r => r.change) =
      some (-1)
    rw [hb]
    show some respPartial.change = some (-1)
    have hc : respPartial.change =
        reqPartial.amountPaid - reqPartial.totalAmount := rfl
    rw [hc]
    norm_num [reqPartial, mkReq]
  · norm_num [reqPartial, mkReq]

/-- C7 (amended): on every committed dispense whose response builds (the
included student exists), the response carries the created dispensal's
receipt number, the created dispensal row is persisted, and
`change = amountPaid - totalAmount` (possibly negative); the prescription's
new status is carried in the transaction result — matching the committed
row — rather than in the response body. -/
theorem dispense_response_fields (db : DB) (c : Clock) (pid : Nat)
    (req : DispenseRequest) (db' : DB) (res : DispenseResult)
    (resp : DispenseResponseData)
    (h : dispense db c pid req = .ok (db', res))
    (hr : buildResponse res req = some resp) :
    resp.dispensalNo = res.dispensal.dispensalNo ∧
      res.dispensal ∈ db'.dispensals ∧
      resp.change = req.amountPaid - req.totalAmount ∧
      (∀ pr' ∈ db'.prescriptions, pr'.id = pid →
        pr'.status = res.prescription.status) := by
  obtain ⟨presc, db2, hfind, hid, hst, hcs, happ, hrd, hrp, hrs, hp, hdsp,
    hit, hpr, hstu⟩ := dispense_ok_inv db c pid req db' res h
  obtain ⟨e1, e2, e3, e4, e5, e6⟩ :=
    applyItemUpdates_ok_inv c.millis req.dispensedBy req.dispensedItems _ _ happ
  have hfields : resp.dispensalNo = res.dispensal.dispensalNo ∧
      resp.change = req.amountPaid - req.totalAmount := by
    rw [buildResponse] at hr
    cases hs : res.student with
    | none => rw [hs] at hr; cases hr
    | some s =>
      rw [hs] at hr
      have := Option.some.inj hr
      subst this
      exact ⟨rfl, rfl⟩
  refine ⟨hfields.1, ?_, hfields.2, ?_⟩
  · rw [hdsp, e2, hrd]
    simp
  · intro pr' hpr' hpid
    rw [hid] at hp hrp
    rw [hp, (applyItemUpdates_ok_inv c.millis req.dispensedBy
      req.dispensedItems _ _ happ).1] at hpr'
    obtain ⟨pr, hpr, hval⟩ := List.mem_map.mp hpr'
    by_cases hprid : pr.id = pid
    · have hstatus : pr'.status =
          (if (req.dispensedItems.length ==
              (prescriptionItemsOf db pid).length) = true then "dispensed"
            else "partially_dispensed") := by
        rw [← hval]
        unfold updatePrescriptionRow
        rw [if_pos (by simpa using hprid)]
      rw [hstatus, hrp]
    · exfalso
      apply hprid
      have hpr'eq : pr' = pr := by
        rw [← hval]
        unfold updatePrescriptionRow
        rw [if_neg (by simpa using hprid)]
      rw [← hpid, hpr'eq]

/-- C7 witness: the committed partial dispense on the two-item fixture. -/
theorem dispense_response_fields_witness :
    respPartial.dispensalNo = runPartial.2.dispensal.dispensalNo ∧
      runPartial.2.dispensal ∈ runPartial.1.dispensals ∧
      respPartial.change = reqPartial.amountPaid - reqPartial.totalAmount ∧
      (∀ pr' ∈ runPartial.1.prescriptions, pr'.id = 10 →
        pr'.status = runPartial.2.prescription.status) :=
  dispense_response_fields dbTwo clock0 10 reqPartial runPartial.1 runPartial.2
    respPartial (by decide) ((Option.some_get _).symm)

end Pharmacy
